import Mathlib

/-!
# Verification of `mail_exporter` against its specification

Shallow embedding of the relevant parts of the `mail_exporter` repository
(`email_providers.py`, `email_parser.py`, `incremental_exporter.py`,
`oauth_gmail.py`, `mail_client.py`) together with proofs settling the
claims about them.

Conventions used throughout:
* Python strings are Lean `String`s; where character-level scanning matters
  we work on `List Char` (the `data` of the string).
* Python `None` / optional values become `Option`; code that can raise
  becomes `Except String` or `Option`.
* Python `dict` results become association lists in the evaluation order of
  the source.
* Calls into the Python standard library (`base64.b64decode`,
  `bytes.decode("utf-16be")`, attribute lookup on objects) are modelled by
  executable Lean functions whose behaviour is documented at the
  definition site.
-/

set_option maxRecDepth 4096

namespace MailExporter

/-! ## `email_providers.py` -/

/-- The `EmailProviderConfig` dataclass (`email_providers.py`, lines 16-27).
These are exactly the nine declared fields; in particular the field is
`domain_patterns` (plural) and there is no field named `domain_pattern`. -/
structure EmailProviderConfig where
  name : String
  display_name : String
  imap_server : String
  imap_port : Nat
  use_ssl : Bool
  auth_type : String
  domain_patterns : List String
  description : String
  setup_instructions : String
deriving DecidableEq, Repr

/-- `DEFAULT_PROVIDERS['163']` (`email_providers.py`, lines 35-45). -/
def provider163 : EmailProviderConfig :=
  { name := "163", display_name := "163邮箱", imap_server := "imap.163.com",
    imap_port := 993, use_ssl := true, auth_type := "password",
    domain_patterns := ["163.com", "126.com", "yeah.net"],
    description := "网易163邮箱服务",
    setup_instructions := "使用邮箱密码或客户端授权码登录" }

/-- `DEFAULT_PROVIDERS['gmail']` (`email_providers.py`, lines 47-57). -/
def providerGmail : EmailProviderConfig :=
  { name := "gmail", display_name := "Gmail", imap_server := "imap.gmail.com",
    imap_port := 993, use_ssl := true, auth_type := "oauth2",
    domain_patterns := ["gmail.com", "googlemail.com"],
    description := "Google Gmail邮箱服务",
    setup_instructions := "使用OAuth2认证，需要配置Google API凭据" }

/-- `DEFAULT_PROVIDERS['qq']` (`email_providers.py`, lines 59-69). -/
def providerQq : EmailProviderConfig :=
  { name := "qq", display_name := "QQ邮箱", imap_server := "imap.qq.com",
    imap_port := 993, use_ssl := true, auth_type := "app_password",
    domain_patterns := ["qq.com", "foxmail.com"],
    description := "腾讯QQ邮箱服务",
    setup_instructions := "需要开启IMAP服务并使用授权码登录" }

/-- `DEFAULT_PROVIDERS['outlook']` (`email_providers.py`, lines 71-81). -/
def providerOutlook : EmailProviderConfig :=
  { name := "outlook", display_name := "Outlook/Hotmail",
    imap_server := "outlook.office365.com",
    imap_port := 993, use_ssl := true, auth_type := "app_password",
    domain_patterns := ["outlook.com", "hotmail.com", "live.com", "msn.com"],
    description := "微软Outlook邮箱服务",
    setup_instructions := "需要开启两步验证并生成应用密码" }

/-- `DEFAULT_PROVIDERS['yahoo']` (`email_providers.py`, lines 83-93). -/
def providerYahoo : EmailProviderConfig :=
  { name := "yahoo", display_name := "Yahoo Mail",
    imap_server := "imap.mail.yahoo.com",
    imap_port := 993, use_ssl := true, auth_type := "app_password",
    domain_patterns := ["yahoo.com", "yahoo.cn", "ymail.com"],
    description := "雅虎邮箱服务",
    setup_instructions := "需要开启两步验证并生成应用密码" }

/-- `DEFAULT_PROVIDERS['custom']` (`email_providers.py`, lines 95-105). -/
def providerCustom : EmailProviderConfig :=
  { name := "custom", display_name := "其他邮箱(自定义)", imap_server := "",
    imap_port := 993, use_ssl := true, auth_type := "password",
    domain_patterns := [],
    description := "通用邮箱服务 - 需要手动配置IMAP服务器信息",
    setup_instructions := "请输入邮箱提供商的IMAP服务器地址、端口等信息" }

/-- `EmailProviders.DEFAULT_PROVIDERS` in dict insertion order
(`email_providers.py`, lines 34-106).  With no
`email_providers_config.json` present, `_initialize_providers` copies this
dict into `PROVIDERS`, and `PROVIDERS.values()` iterates in this order. -/
def DEFAULT_PROVIDERS : List EmailProviderConfig :=
  [provider163, providerGmail, providerQq, providerOutlook, providerYahoo,
   providerCustom]

/-- Model of Python `str.lower()`: lower-case every character
(ASCII-faithful via `Char.toLower`; all domains compared in this program
are ASCII). -/
def pyLower (s : String) : String := String.mk (s.data.map Char.toLower)

/-- Model of Python `str.split(sep)` for a single-character separator.
`"".split(c) = ['']`, and each occurrence of the separator starts a new
segment. -/
def pySplit (sep : Char) : List Char → List (List Char)
  | [] => [[]]
  | c :: rest =>
    if c = sep then [] :: pySplit sep rest
    else
      match pySplit sep rest with
      | s :: ss => (c :: s) :: ss
      | [] => [[c]]

theorem pySplit_ne_nil (sep : Char) (l : List Char) : pySplit sep l ≠ [] := by
  cases l with
  | nil => simp [pySplit]
  | cons c rest =>
    simp only [pySplit]
    split
    · simp
    · split <;> simp

/-- `EmailProviders.get_provider_by_email` (`email_providers.py`,
lines 176-196): return `None` for an empty address or one without `'@'`;
otherwise take `email.split('@')[1]`, lower-case it, and return the first
provider whose `domain_patterns` list contains it (dict iteration order),
else `None`.  Lower-casing is modelled with `pyLower`. -/
def get_provider_by_email (providers : List EmailProviderConfig)
    (em : String) : Option EmailProviderConfig :=
  if em = "" || !(em.data.contains '@') then none
  else
    let domain := pyLower (String.mk ((pySplit '@' em.data).getD 1 []))
    providers.find? (fun p => p.domain_patterns.contains domain)

/-- The domain extraction the claim describes: the text after the *last*
`'@'` of the address (this is NOT what the code computes). -/
def domainAfterLastAt (em : String) : String :=
  String.mk (em.data.reverse.takeWhile (fun c => c ≠ '@')).reverse

/-- `get_provider_by_email` as the claim words it: exact membership of the
lower-cased text after the last `'@'`. -/
def get_provider_by_email_claim (providers : List EmailProviderConfig)
    (em : String) : Option EmailProviderConfig :=
  if em = "" || !(em.data.contains '@') then none
  else
    providers.find?
      (fun p => p.domain_patterns.contains (pyLower (domainAfterLastAt em)))

/-- The segment of a character list between the first occurrence of `sep`
and the following one (empty if there is no occurrence). -/
def betweenFirstTwo (sep : Char) (l : List Char) : List Char :=
  ((l.dropWhile (fun c => c ≠ sep)).drop 1).takeWhile (fun c => c ≠ sep)

theorem pySplit_head (sep : Char) (l : List Char) :
    (pySplit sep l).headD [] = l.takeWhile (fun c => c ≠ sep) := by
  induction l with
  | nil => simp [pySplit]
  | cons c rest ih =>
    simp only [pySplit]
    by_cases h : c = sep
    · simp [h, List.takeWhile]
    · simp only [if_neg h]
      cases hs : pySplit sep rest with
      | nil => exact absurd hs (pySplit_ne_nil sep rest)
      | cons s ss =>
        simp only [List.headD]
        rw [hs] at ih
        simp only [List.headD] at ih
        simp [List.takeWhile, h, ih]

/-- `l.split(sep)[1]` is the segment between the first and second
occurrence of `sep`. -/
theorem pySplit_getD_one (sep : Char) (l : List Char) :
    (pySplit sep l).getD 1 [] = betweenFirstTwo sep l := by
  induction l with
  | nil => simp [pySplit, betweenFirstTwo]
  | cons c rest ih =>
    simp only [pySplit, betweenFirstTwo]
    by_cases h : c = sep
    · simp only [if_pos h]
      have := pySplit_head sep rest
      cases hs : pySplit sep rest with
      | nil => exact absurd hs (pySplit_ne_nil sep rest)
      | cons s ss =>
        rw [hs] at this
        simp only [List.headD] at this
        simp [List.dropWhile, h, this]
    · simp only [if_neg h]
      cases hs : pySplit sep rest with
      | nil => exact absurd hs (pySplit_ne_nil sep rest)
      | cons s ss =>
        rw [hs] at ih
        simp only [betweenFirstTwo] at ih
        simpa [List.dropWhile, h, List.drop_one] using ih

/-- **C3 (amended).** For every address string, `get_provider_by_email`
returns `None` for an empty address or one without `'@'`, and otherwise
returns the first provider whose `domain_patterns` list contains (exact
membership, never suffix matching) the lower-cased domain, where the
domain is the text after the *first* `'@'` of the address, up to the next
`'@'` if any (for addresses with a single `'@'` this is the text after
that `'@'`). -/
theorem get_provider_by_email_first_at_segment
    (providers : List EmailProviderConfig) (em : String) :
    get_provider_by_email providers em =
      if em = "" || !(em.data.contains '@') then none
      else providers.find?
        (fun p => p.domain_patterns.contains
          (pyLower (String.mk (betweenFirstTwo '@' em.data)))) := by
  unfold get_provider_by_email
  rw [pySplit_getD_one]

/-- **C3 (counterexample).** The claim says the domain is the text after
the *last* `'@'`.  On `"a@b@126.com"` the last-`'@'` domain is
`"126.com"`, which is in provider `163`'s patterns, so the claim predicts
provider `163`; the code splits at the first `'@'`, looks up `"b"`, and
returns no value. -/
theorem get_provider_by_email_last_at_counterexample :
    get_provider_by_email DEFAULT_PROVIDERS "a@b@126.com" = none ∧
    get_provider_by_email_claim DEFAULT_PROVIDERS "a@b@126.com" =
      some provider163 ∧
    domainAfterLastAt "a@b@126.com" = "126.com" :=
  ⟨rfl, rfl, rfl⟩

/-- Sanity check from the spec's example: `user@126.com` resolves to
provider `163`, and an unknown domain resolves to no value. -/
theorem get_provider_by_email_examples :
    get_provider_by_email DEFAULT_PROVIDERS "user@126.com" =
      some provider163 ∧
    get_provider_by_email DEFAULT_PROVIDERS "user@unknown.tld" = none :=
  ⟨rfl, rfl⟩

/-! ## `mail_client.py`: `get_provider_info` -/

/-- A Python value as it appears in the provider-info dictionary. -/
inductive PyVal where
  | str (s : String)
  | nat (n : Nat)
  | list (l : List String)
deriving DecidableEq, Repr

/-- Python attribute access on an `EmailProviderConfig` dataclass
instance: the nine declared fields resolve to their values; any other
attribute name raises `AttributeError`. -/
def configGetAttr (c : EmailProviderConfig) (attr : String) :
    Except String PyVal :=
  if attr = "name" then .ok (.str c.name)
  else if attr = "display_name" then .ok (.str c.display_name)
  else if attr = "imap_server" then .ok (.str c.imap_server)
  else if attr = "imap_port" then .ok (.nat c.imap_port)
  else if attr = "use_ssl" then .ok (.str (if c.use_ssl then "True" else "False"))
  else if attr = "auth_type" then .ok (.str c.auth_type)
  else if attr = "domain_patterns" then .ok (.list c.domain_patterns)
  else if attr = "description" then .ok (.str c.description)
  else if attr = "setup_instructions" then .ok (.str c.setup_instructions)
  else .error ("AttributeError: " ++ attr)

/-- The methods defined on the `EmailProviders` class
(`email_providers.py`).  Note there is `get_auth_instructions` but no
method named `get_auth_help`. -/
def providersMethods : List String :=
  ["_load_config_file", "_load_providers_from_config",
   "_initialize_providers", "reload_config", "get_provider_by_email",
   "get_provider_by_name", "get_all_providers", "get_provider_names",
   "get_provider_display_names", "validate_email_format",
   "get_connection_params", "get_auth_instructions",
   "validate_custom_config", "create_custom_provider",
   "get_custom_connection_params"]

/-- `MailClient.get_provider_info` (`mail_client.py`, lines 639-657).
With no configuration it returns `{}`.  Otherwise it builds a dict whose
values are evaluated in source order:
`self.config.name`, `.display_name`, `.imap_server`, `.imap_port`,
`.auth_type`, then `self.config.domain_pattern` (line 655) — an attribute
that does not exist on the dataclass — and finally
`self.providers.get_auth_help(...)` (line 656) — a method that does not
exist on `EmailProviders`.  The first failing lookup propagates as the
raised exception.  (The `get_auth_help` branch below is dead: it is only
reached if the method existed.) -/
def get_provider_info (config : Option EmailProviderConfig) :
    Except String (List (String × PyVal)) :=
  match config with
  | none => .ok []
  | some c => do
    let vName ← configGetAttr c "name"
    let vDisplay ← configGetAttr c "display_name"
    let vServer ← configGetAttr c "imap_server"
    let vPort ← configGetAttr c "imap_port"
    let vAuth ← configGetAttr c "auth_type"
    let vDomain ← configGetAttr c "domain_pattern"
    let vHelp ←
      if providersMethods.contains "get_auth_help" then
        .ok (.str c.setup_instructions)
      else .error "AttributeError: get_auth_help"
    .ok [("name", vName), ("display_name", vDisplay),
         ("imap_server", vServer), ("port", vPort), ("auth_type", vAuth),
         ("domain_pattern", vDomain), ("auth_help", vHelp)]

/-- **C2 (code bug).** For every resolved provider configuration,
`get_provider_info` raises `AttributeError` (the dataclass field is
`domain_patterns`, but line 655 reads `self.config.domain_pattern`), so it
never returns the documented dictionary; with no configuration it returns
`{}`.  Additionally, the `auth_help` entry would call
`EmailProviders.get_auth_help`, which does not exist either. -/
theorem get_provider_info_raises (c : EmailProviderConfig) :
    get_provider_info (some c) = .error "AttributeError: domain_pattern" ∧
    get_provider_info none = .ok [] ∧
    providersMethods.contains "get_auth_help" = false := by
  refine ⟨?_, rfl, rfl⟩
  rfl

/-! ## `email_parser.py`: the manual IMAP modified-UTF-7 decoder -/

/-- Value of a standard base64 alphabet character. -/
def b64Val (c : Char) : Option Nat :=
  if 'A' ≤ c ∧ c ≤ 'Z' then some (c.toNat - 65)
  else if 'a' ≤ c ∧ c ≤ 'z' then some (c.toNat - 97 + 26)
  else if '0' ≤ c ∧ c ≤ '9' then some (c.toNat - 48 + 52)
  else if c = '+' then some 62
  else if c = '/' then some 63
  else none

/-- The decoding loop of CPython's `binascii.a2b_base64` in its default
non-strict mode (what `base64.b64decode` calls): characters outside the
base64 alphabet are skipped; a `'='` is skipped too, except that when the
current quad already holds at least two data characters and the pads seen
since the last data character complete it (two pads after two characters,
one pad after three), decoding stops *successfully*, discarding the rest
of the input; a data character resets the pad counter.  State: the quad
position (0-3), the bits carried over from the previous character, the
consecutive-pad counter, and the bytes emitted so far.  Input exhausted
mid-quad (`quad_pos ≠ 0`) raises `binascii.Error` — modelled as `none`;
so e.g. `'!!=='` decodes to the empty byte string and `'AOk=AB=='` stops
at the `'='` with `0x00 0xE9`, while `'A!=='` fails. -/
def a2bBase64 : List Char → Nat → Nat → Nat → List Nat → Option (List Nat)
  | [], quad_pos, _, _, out => if quad_pos = 0 then some out else none
  | c :: rest, quad_pos, leftchar, pads, out =>
    if c = '=' then
      if 2 ≤ quad_pos then
        if 4 ≤ quad_pos + (pads + 1) then some out
        else a2bBase64 rest quad_pos leftchar (pads + 1) out
      else a2bBase64 rest quad_pos leftchar pads out
    else
      match b64Val c with
      | none => a2bBase64 rest quad_pos leftchar pads out
      | some v =>
        match quad_pos with
        | 0 => a2bBase64 rest 1 v 0 out
        | 1 => a2bBase64 rest 2 (v % 16) 0 (out ++ [leftchar * 4 + v / 16])
        | 2 => a2bBase64 rest 3 (v % 4) 0 (out ++ [leftchar * 16 + v / 4])
        | _ => a2bBase64 rest 0 0 0 (out ++ [leftchar * 64 + v])

/-- Model of `base64.b64decode(s)` (default `validate=False`): run the
non-strict `a2b_base64` loop from the empty state. -/
def pyB64Decode (s : List Char) : Option (List Nat) :=
  a2bBase64 s 0 0 0 []

/-- Pair up bytes into big-endian 16-bit code units; an odd byte count
fails. -/
def toCodeUnits : List Nat → Option (List Nat)
  | [] => some []
  | [_] => none
  | b0 :: b1 :: rest =>
    (toCodeUnits rest).map (fun us => (b0 * 256 + b1) :: us)

/-- Combine UTF-16 code units into characters: a high surrogate must be
followed by a low surrogate (combined into one scalar value); lone
surrogates fail. -/
def combineSurrogates : List Nat → Option (List Char)
  | [] => some []
  | u :: rest =>
    if 0xD800 ≤ u ∧ u ≤ 0xDBFF then
      match rest with
      | v :: rest2 =>
        if 0xDC00 ≤ v ∧ v ≤ 0xDFFF then
          (combineSurrogates rest2).map
            (fun cs =>
              Char.ofNat (0x10000 + (u - 0xD800) * 0x400 + (v - 0xDC00)) :: cs)
        else none
      | [] => none
    else if 0xDC00 ≤ u ∧ u ≤ 0xDFFF then none
    else (combineSurrogates rest).map (fun cs => Char.ofNat u :: cs)

/-- Model of `bytes.decode('utf-16be')` with strict errors: pairs of bytes
are big-endian code units, surrogate pairs are combined; lone surrogates
or an odd byte count fail with `UnicodeDecodeError`. -/
def utf16beDecode (bytes : List Nat) : Option (List Char) :=
  (toCodeUnits bytes).bind combineSurrogates

/-- `'='`-pad a base64 run to a multiple of four characters
(`email_parser.py`, lines 72-75): `padding = 4 - len % 4`, appended only
when it is not 4. -/
def padTo4 (encoded : List Char) : List Char :=
  let padding := 4 - encoded.length % 4
  if padding ≠ 4 then encoded ++ List.replicate padding '=' else encoded

/-- The inner `try` body for one `&...-` run (`email_parser.py`,
lines 71-79): pad, `base64.b64decode`, decode as big-endian UTF-16.
`none` models any exception caught by the inner `except`. -/
def decodeImapRun (encoded : List Char) : Option (List Char) :=
  (pyB64Decode (padTo4 encoded)).bind utf16beDecode

/-- Split a character list at its first `'-'`:
`findDash l = some (enc, after)` iff `l = enc ++ '-' :: after` with no
`'-'` in `enc`; `none` iff `l` has no `'-'`.  Models
`text.find('-', i + 1)` (`email_parser.py`, line 68). -/
def findDash : List Char → Option (List Char × List Char)
  | [] => none
  | c :: rest =>
    if c = '-' then some ([], rest)
    else
      match findDash rest with
      | some (enc, after) => some (c :: enc, after)
      | none => none

theorem findDash_length {l enc after : List Char}
    (h : findDash l = some (enc, after)) : after.length < l.length := by
  induction l generalizing enc with
  | nil => simp [findDash] at h
  | cons c rest ih =>
    simp only [findDash] at h
    by_cases hc : c = '-'
    · simp only [if_pos hc, Option.some.injEq, Prod.mk.injEq] at h
      simp [← h.2]
    · simp only [if_neg hc] at h
      cases hf : findDash rest with
      | none => rw [hf] at h; simp at h
      | some p =>
        rw [hf] at h
        cases p with
        | mk e a =>
          simp only [Option.some.injEq, Prod.mk.injEq] at h
          have := ih (show findDash rest = some (e, after) by rw [hf, h.2])
          simp only [List.length_cons]
          omega

theorem findDash_append {enc : List Char} (after : List Char)
    (h : '-' ∉ enc) : findDash (enc ++ '-' :: after) = some (enc, after) := by
  induction enc with
  | nil => simp [findDash]
  | cons c rest ih =>
    simp only [List.mem_cons, not_or] at h
    have hc : ¬c = '-' := fun hcc => h.1 hcc.symm
    simp only [List.cons_append, findDash, if_neg hc, List.append_eq]
    rw [ih h.2]

/-- `EmailParser._manual_decode_imap_utf7` (`email_parser.py`,
lines 48-91), on the character list of the input string.  The scan:
a non-`'&'` character is copied; `'&-'` yields a literal `'&'`; for
`'&'` followed by other text, the characters up to the next `'-'` are
base64-decoded (after padding) as big-endian UTF-16, the original run
`'&...-'` being kept verbatim if that fails; an `'&'` with no closing
`'-'` is copied and scanning resumes after it. -/
def manual_decode_imap_utf7 : List Char → List Char
  | [] => []
  | '&' :: '-' :: rest2 => '&' :: manual_decode_imap_utf7 rest2
  | '&' :: rest =>
    (match hf : findDash rest with
     | some (enc, after) =>
       (match decodeImapRun enc with
        | some s => s
        | none => '&' :: (enc ++ ['-'])) ++ manual_decode_imap_utf7 after
     | none => '&' :: manual_decode_imap_utf7 rest)
  | c :: rest => c :: manual_decode_imap_utf7 rest
termination_by l => l.length
decreasing_by
  all_goals simp_wf
  all_goals first
    | omega
    | exact Nat.lt_succ_of_lt (findDash_length hf)

theorem manual_decode_cons_ne {c : Char} (rest : List Char)
    (hc : c ≠ '&') :
    manual_decode_imap_utf7 (c :: rest) = c :: manual_decode_imap_utf7 rest := by
  rw [manual_decode_imap_utf7.eq_def]
  split
  · simp_all
  · simp_all
  · simp_all
  · simp_all

theorem manual_decode_amp_run {e0 : Char} (enc' after : List Char)
    (hd : '-' ∉ e0 :: enc') :
    manual_decode_imap_utf7 ('&' :: ((e0 :: enc') ++ '-' :: after)) =
      (match decodeImapRun (e0 :: enc') with
       | some s => s
       | none => '&' :: ((e0 :: enc') ++ ['-'])) ++
        manual_decode_imap_utf7 after := by
  have he : e0 ≠ '-' := by
    intro h
    exact hd (by simp [h])
  rw [manual_decode_imap_utf7.eq_def]
  split
  · simp_all
  · rename_i r2 heq
    rw [List.cons.injEq, List.cons_append, List.cons.injEq] at heq
    exact absurd heq.2.1 he
  · rename_i rv harm heq
    rw [List.cons.injEq] at heq
    split
    · rename_i enc2 after2 hf
      rw [← heq.2, findDash_append after hd] at hf
      rw [Option.some.injEq, Prod.mk.injEq] at hf
      rw [hf.1, hf.2]
    · rename_i hf
      rw [← heq.2, findDash_append after hd] at hf
      exact absurd hf (by simp)
  · rename_i hne heq
    rw [List.cons.injEq] at heq
    exact absurd heq.1.symm hne

theorem manual_decode_amp_dash (rest : List Char) :
    manual_decode_imap_utf7 ('&' :: '-' :: rest) =
      '&' :: manual_decode_imap_utf7 rest := by
  simp [manual_decode_imap_utf7]

theorem manual_decode_id (l : List Char) (h : '&' ∉ l) :
    manual_decode_imap_utf7 l = l := by
  induction l with
  | nil => simp [manual_decode_imap_utf7]
  | cons c rest ih =>
    simp only [List.mem_cons, not_or] at h
    rw [manual_decode_cons_ne rest (fun e => h.1 e.symm), ih h.2]

/-- Concrete decoder evaluations: `"&AOk-x"` decodes to `"éx"` (base64
`AOk=` is the UTF-16BE bytes of `é`); the run in `"&!!-x"` *succeeds* as
the empty string (the padded interior `!!==` base64-decodes to zero
bytes in non-strict mode), so the run is deleted; `"&AOk=AB==-"`
decodes to `"é"` (the non-strict decoder stops at the complete padding
after `AOk=` and ignores the trailing `AB==`); `"&AA-x"` is kept
verbatim (one decoded byte is not valid UTF-16BE); and `"&-a"` decodes
to `"&a"`. -/
theorem manual_decode_imap_utf7_examples :
    manual_decode_imap_utf7 "&AOk-x".data = "éx".data ∧
    manual_decode_imap_utf7 "&!!-x".data = "x".data ∧
    manual_decode_imap_utf7 "&AOk=AB==-".data = "é".data ∧
    manual_decode_imap_utf7 "&AA-x".data = "&AA-x".data ∧
    manual_decode_imap_utf7 "&-a".data = "&a".data := by
  refine ⟨?_, ?_, ?_, ?_, ?_⟩
  · rw [show "&AOk-x".data = '&' :: (('A' :: "Ok".data) ++ '-' :: "x".data)
        from rfl,
      manual_decode_amp_run "Ok".data "x".data (by decide),
      show decodeImapRun ('A' :: "Ok".data) = some "é".data from by decide,
      manual_decode_id "x".data (by decide)]
    rfl
  · rw [show "&!!-x".data = '&' :: (('!' :: "!".data) ++ '-' :: "x".data)
        from rfl,
      manual_decode_amp_run "!".data "x".data (by decide),
      show decodeImapRun ('!' :: "!".data) = some [] from by decide,
      manual_decode_id "x".data (by decide)]
    rfl
  · rw [show "&AOk=AB==-".data =
        '&' :: (('A' :: "Ok=AB==".data) ++ '-' :: ([] : List Char))
        from rfl,
      manual_decode_amp_run "Ok=AB==".data [] (by decide),
      show decodeImapRun ('A' :: "Ok=AB==".data) = some "é".data
        from by decide,
      manual_decode_id [] (by decide)]
    rfl
  · rw [show "&AA-x".data = '&' :: (('A' :: "A".data) ++ '-' :: "x".data)
        from rfl,
      manual_decode_amp_run "A".data "x".data (by decide),
      show decodeImapRun ('A' :: "A".data) = none from by decide,
      manual_decode_id "x".data (by decide)]
    rfl
  · rw [show "&-a".data = '&' :: '-' :: "a".data from rfl,
      manual_decode_amp_dash "a".data, manual_decode_id "a".data (by decide)]

/-! ## `email_parser.py`: `parse_email_date` -/

/-- Outcome of the library pipeline
`email.utils.parsedate_tz` / `mktime_tz` / `datetime.fromtimestamp` on a
date-header string: the pipeline can produce a timestamp, produce no
result (`parsedate_tz` returns `None`), or raise (e.g.
`datetime.fromtimestamp` raises for a year out of range). -/
inductive DateParseOutcome where
  | ok (ts : Int)
  | noResult
  | raised
deriving DecidableEq, Repr

/-- A value returned by `parse_email_date`: either a `datetime` (the
annotated return type) or — on the exception path — a `str` holding the
formatted current time. -/
inductive DateValue where
  | dt (ts : Int)
  | str (s : String)
deriving DecidableEq, Repr

/-- `EmailParser.parse_email_date` (`email_parser.py`, lines 336-358),
parameterised by the library pipeline's behaviour (`pipeline`) and by the
formatted current local time (`nowStr`, the value of
`datetime.now().strftime('%Y-%m-%d %H:%M:%S')`).  An empty header returns
`None`; a pipeline that returns no result falls through to the final
`return None`; a pipeline that *raises* hits the `except` branch
(line 356), which returns the formatted current time — a `str`. -/
def parse_email_date (pipeline : String → DateParseOutcome) (nowStr : String)
    (date_str : String) : Option DateValue :=
  if date_str = "" then none
  else
    match pipeline date_str with
    | .ok ts => some (.dt ts)
    | .noResult => none
    | .raised => some (.str nowStr)

/-- A concrete header on which the real pipeline raises:
`parsedate_tz` parses the year 10000 and `mktime_tz` yields a timestamp
for which `datetime.fromtimestamp` raises `ValueError: year 10000 is out
of range`. -/
def overflowHeader : String := "1 Jan 10000 00:00:00 +0000"

/-- A pipeline behaving like the standard library on `overflowHeader`
(raises) and on `"not a date"` (returns no result). -/
def pipelineExample : String → DateParseOutcome := fun s =>
  if s = overflowHeader then .raised
  else if s = "not a date" then .noResult
  else .ok 0

/-- **C4 (code bug).** `parse_email_date` returns no value for an empty
header and no value when the parse yields no result, but on a header
whose conversion *raises* (e.g. a year out of `datetime`'s range) the
`except` branch returns the current time formatted as a string — a
fallback current-time value, contradicting both the claim and the
function's own `Optional[datetime]` annotation. -/
theorem parse_email_date_current_time_fallback :
    parse_email_date pipelineExample "2026-10-12 09:00:00" "" = none ∧
    parse_email_date pipelineExample "2026-10-12 09:00:00" "not a date" =
      none ∧
    parse_email_date pipelineExample "2026-10-12 09:00:00" overflowHeader =
      some (.str "2026-10-12 09:00:00") :=
  ⟨rfl, rfl, rfl⟩

/-! ## `email_parser.py`: attachments -/

/-- One MIME part of a message, as seen by `process_attachments`:
its `Content-Disposition` header, the result of `part.get_filename()`
(`none` models Python `None`), whether the decoded payload is non-empty
(truthy), and whether the filesystem operations (directory creation and
file write) succeed for this part (`false` models an exception caught by
the per-part `except`). -/
structure MsgPart where
  content_disposition : String
  filename : Option String
  payloadNonempty : Bool
  saveOk : Bool
deriving DecidableEq, Repr

/-- A parsed email message: metadata headers, whether it is multipart,
and its MIME parts. -/
structure EmailMsg where
  subject : String
  from_ : String
  to_ : String
  date_header : String
  content : String
  is_multipart : Bool
  parts : List MsgPart
deriving Repr

/-- Substring test on character lists (Python `needle in haystack`). -/
def containsSub (needle : List Char) : List Char → Bool
  | [] => needle.isEmpty
  | c :: rest => needle.isPrefixOf (c :: rest) || containsSub needle rest

/-- Python truthiness of `part.get_filename()`: a present, non-empty
string. -/
def filenameTruthy : Option String → Bool
  | some s => !(s = "")
  | none => false

/-- `re.sub(r'[<>:"/\\|?*]', '_', filename)` (`email_parser.py`,
line 304). -/
def sanitizeFilename (s : String) : String :=
  String.mk (s.data.map (fun c =>
    if c ∈ ['<', '>', ':', '"', '/', '\\', '|', '?', '*'] then '_' else c))

/-- The condition under which a part enters the attachment branch
(`email_parser.py`, line 275): `"attachment" in content_disposition or
part.get_filename()`. -/
def partIsCandidate (p : MsgPart) : Bool :=
  containsSub "attachment".data p.content_disposition.data ||
    filenameTruthy p.filename

/-- One step of `process_attachments` over the running
`(attachment_count, attachment_files)` accumulator: a candidate part with
a truthy filename, successful filesystem operations and a non-empty
payload contributes exactly one count and one relative path
(`email_<id>/<safe name>`); every other part leaves the accumulator
unchanged.  (Collision suffixing of duplicate file names is not modelled;
it renames the saved path and does not affect which parts contribute.) -/
def attachmentStep (email_id : String) (acc : Nat × List String)
    (p : MsgPart) : Nat × List String :=
  if partIsCandidate p then
    if filenameTruthy p.filename then
      if p.saveOk then
        if p.payloadNonempty then
          let fn := sanitizeFilename (p.filename.getD "")
          let fn := if fn = "" then "attachment_" ++ toString (acc.1 + 1)
                    else fn
          (acc.1 + 1, acc.2 ++ ["email_" ++ email_id ++ "/" ++ fn])
        else acc
      else acc
    else acc
  else acc

/-- `EmailParser.process_attachments` (`email_parser.py`, lines 248-334):
a non-multipart message yields `(0, [])`; otherwise fold
`attachmentStep` over the parts. -/
def process_attachments (msg : EmailMsg) (email_id : String) :
    Nat × List String :=
  if !msg.is_multipart then (0, [])
  else msg.parts.foldl (attachmentStep email_id) (0, [])

/-- The record assembled by `parse_complete_email`; only the fields
relevant to the attachment invariant are carried in full. -/
structure MessageRecord where
  subject : String
  from_ : String
  content : String
  attachment_count : Nat
  attachment_files : List String
deriving Repr

/-- `EmailParser.parse_complete_email` (`email_parser.py`,
lines 383-417): metadata and content are extracted, then — only when
attachment download is requested and both an attachment folder and an
email id were supplied — `process_attachments` fills
`attachment_count` / `attachment_files`; otherwise both are `0` and
`[]`. -/
def parse_complete_email (msg : EmailMsg) (email_id : Option String)
    (attachment_folder : Option String) (download_attachments : Bool) :
    MessageRecord :=
  let pair :=
    if download_attachments && attachment_folder.isSome && email_id.isSome
    then process_attachments msg (email_id.getD "")
    else (0, [])
  { subject := msg.subject, from_ := msg.from_, content := msg.content,
    attachment_count := pair.1, attachment_files := pair.2 }

theorem attachmentStep_count (email_id : String) (acc : Nat × List String)
    (p : MsgPart) (h : acc.1 = acc.2.length) :
    (attachmentStep email_id acc p).1 =
      (attachmentStep email_id acc p).2.length := by
  unfold attachmentStep
  split <;> try exact h
  split <;> try exact h
  split <;> try exact h
  split <;> try exact h
  simp [h]

theorem process_attachments_foldl_count (email_id : String)
    (parts : List MsgPart) (acc : Nat × List String)
    (h : acc.1 = acc.2.length) :
    (parts.foldl (attachmentStep email_id) acc).1 =
      (parts.foldl (attachmentStep email_id) acc).2.length := by
  induction parts generalizing acc with
  | nil => exact h
  | cons p rest ih =>
    exact ih _ (attachmentStep_count email_id acc p h)

/-- **C8.** Every record produced by `parse_complete_email` satisfies
`attachment_count = attachment_files.length`; each part processed by
`process_attachments` either leaves the pair unchanged (skipped or failed
attachment) or contributes exactly one count and one path (successfully
saved attachment); and when attachments are not downloaded both fields
are `0` and `[]`. -/
theorem parse_complete_email_attachment_invariant :
    (∀ (msg : EmailMsg) (email_id attachment_folder : Option String)
        (download_attachments : Bool),
      (parse_complete_email msg email_id attachment_folder
          download_attachments).attachment_count =
        (parse_complete_email msg email_id attachment_folder
          download_attachments).attachment_files.length) ∧
    (∀ (email_id : String) (acc : Nat × List String) (p : MsgPart),
      attachmentStep email_id acc p = acc ∨
      ∃ path, attachmentStep email_id acc p = (acc.1 + 1, acc.2 ++ [path])) ∧
    (∀ (msg : EmailMsg) (email_id attachment_folder : Option String),
      (parse_complete_email msg email_id attachment_folder
          false).attachment_count = 0 ∧
      (parse_complete_email msg email_id attachment_folder
          false).attachment_files = []) := by
  refine ⟨?_, ?_, ?_⟩
  · intro msg email_id attachment_folder download_attachments
    unfold parse_complete_email
    split
    · unfold process_attachments
      split
      · rfl
      · exact process_attachments_foldl_count (email_id.getD "") msg.parts
          (0, []) rfl
    · rfl
  · intro email_id acc p
    unfold attachmentStep
    split; rotate_left; · exact .inl rfl
    split; rotate_left; · exact .inl rfl
    split; rotate_left; · exact .inl rfl
    split; rotate_left; · exact .inl rfl
    exact .inr ⟨_, rfl⟩
  · intro msg email_id attachment_folder
    exact ⟨rfl, rfl⟩

/-! ## `mail_client.py`: `search_emails` date query (C5) -/

/-- A `datetime.date`-like calendar date (proleptic Gregorian). -/
structure PyDate where
  year : Nat
  month : Nat
  day : Nat
deriving DecidableEq, Repr

/-- Gregorian leap-year rule, as used by Python's `datetime`. -/
def isLeapYear (y : Nat) : Bool :=
  decide (y % 4 = 0 ∧ (¬y % 100 = 0 ∨ y % 400 = 0))

/-- Length of month `m` in year `y`. -/
def daysInMonth (y m : Nat) : Nat :=
  if m = 2 then (if isLeapYear y then 29 else 28)
  else if m = 4 ∨ m = 6 ∨ m = 9 ∨ m = 11 then 30
  else 31

/-- A valid calendar date. -/
def ValidDate (d : PyDate) : Prop :=
  1 ≤ d.year ∧ 1 ≤ d.month ∧ d.month ≤ 12 ∧ 1 ≤ d.day ∧
    d.day ≤ daysInMonth d.year d.month

instance (d : PyDate) : Decidable (ValidDate d) := by
  unfold ValidDate; infer_instance

/-- `end_date + timedelta(days=1)` on the calendar. -/
def addOneDay (d : PyDate) : PyDate :=
  if d.day < daysInMonth d.year d.month then ⟨d.year, d.month, d.day + 1⟩
  else if d.month < 12 then ⟨d.year, d.month + 1, 1⟩
  else ⟨d.year + 1, 1, 1⟩

/-- The `%b` month abbreviations of the `"C"` locale: fixed English
abbreviations. -/
def monthAbbrevC : Nat → String
  | 1 => "Jan" | 2 => "Feb" | 3 => "Mar" | 4 => "Apr"
  | 5 => "May" | 6 => "Jun" | 7 => "Jul" | 8 => "Aug"
  | 9 => "Sep" | 10 => "Oct" | 11 => "Nov" | 12 => "Dec"
  | _ => ""

/-- An `LC_TIME` locale, reduced to what `%b` consumes: its month
abbreviation table. -/
structure LocaleTable where
  monthAbbrev : Nat → String

/-- The `"C"` locale. -/
def cLocale : LocaleTable := ⟨monthAbbrevC⟩

/-- `%d`: zero-padded two-digit day. -/
def pad2 (n : Nat) : String :=
  if n < 10 then "0" ++ toString n else toString n

/-- `strftime('%d-%b-%Y')` under a given locale. -/
def strftime_dbY (loc : LocaleTable) (d : PyDate) : String :=
  pad2 d.day ++ "-" ++ loc.monthAbbrev d.month ++ "-" ++ toString d.year

/-- The date query built by `MailClient.search_emails` (`mail_client.py`,
lines 322-337): the code saves the ambient `LC_TIME` locale, sets it to
`"C"`, formats `start_date` and `end_date + timedelta(days=1)` with
`'%d-%b-%Y'`, and restores the ambient locale afterwards — so the ambient
locale never reaches `strftime`. -/
def search_emails_date_query (ambient : LocaleTable)
    (start_date end_date : PyDate) : String :=
  "(SINCE \"" ++ strftime_dbY cLocale start_date ++ "\" BEFORE \"" ++
    strftime_dbY cLocale (addOneDay end_date) ++ "\")"

/-- Cumulative days before month `m` in a non-leap year. -/
def cumDays : Nat → Nat
  | 1 => 0 | 2 => 31 | 3 => 59 | 4 => 90 | 5 => 120 | 6 => 151
  | 7 => 181 | 8 => 212 | 9 => 243 | 10 => 273 | 11 => 304 | 12 => 334
  | _ => 365

/-- Days elapsed in year `y` strictly before month `m`. -/
def daysBeforeMonth (y m : Nat) : Nat :=
  cumDays m + (if 3 ≤ m ∧ isLeapYear y then 1 else 0)

/-- Number of leap years in `1..y`. -/
def leapCount (y : Nat) : Int :=
  ((y / 4 : Nat) : Int) - ((y / 100 : Nat) : Int) + ((y / 400 : Nat) : Int)

/-- Proleptic Gregorian ordinal (rata die), as in
`datetime.date.toordinal`: day 1 is 0001-01-01. -/
def toOrdinal (d : PyDate) : Int :=
  365 * ((d.year : Int) - 1) + leapCount (d.year - 1) +
    (daysBeforeMonth d.year d.month : Int) + (d.day : Int)

theorem leapCount_succ (y : Nat) :
    leapCount (y + 1) =
      leapCount y + (if isLeapYear (y + 1) then 1 else 0) := by
  have h4 : (y + 1) / 4 = y / 4 + if 4 ∣ y + 1 then 1 else 0 :=
    Nat.succ_div y 4
  have h100 : (y + 1) / 100 = y / 100 + if 100 ∣ y + 1 then 1 else 0 :=
    Nat.succ_div y 100
  have h400 : (y + 1) / 400 = y / 400 + if 400 ∣ y + 1 then 1 else 0 :=
    Nat.succ_div y 400
  have e4 : (4 : Nat) ∣ y + 1 ↔ (y + 1) % 4 = 0 :=
    Nat.dvd_iff_mod_eq_zero
  have e100 : (100 : Nat) ∣ y + 1 ↔ (y + 1) % 100 = 0 :=
    Nat.dvd_iff_mod_eq_zero
  have e400 : (400 : Nat) ∣ y + 1 ↔ (y + 1) % 400 = 0 :=
    Nat.dvd_iff_mod_eq_zero
  unfold leapCount
  rw [h4, h100, h400]
  by_cases d400 : (400 : Nat) ∣ y + 1
  · have d100 : (100 : Nat) ∣ y + 1 := dvd_trans (by norm_num) d400
    have d4 : (4 : Nat) ∣ y + 1 := dvd_trans (by norm_num) d100
    have : isLeapYear (y + 1) = true := by
      simp [isLeapYear, e4.mp d4, e400.mp d400]
    simp [d4, d100, d400, this]
    try push_cast
    try ring
  · by_cases d100 : (100 : Nat) ∣ y + 1
    · have d4 : (4 : Nat) ∣ y + 1 := dvd_trans (by norm_num) d100
      have : isLeapYear (y + 1) = false := by
        simp only [isLeapYear, decide_eq_false_iff_not]
        intro hcon
        rcases hcon.2 with h | h
        · exact h (e100.mp d100)
        · exact d400 (e400.mpr h)
      simp [d4, d100, d400, this]
      try push_cast
      try ring
    · by_cases d4 : (4 : Nat) ∣ y + 1
      · have : isLeapYear (y + 1) = true := by
          have : ¬(y + 1) % 100 = 0 := fun h => d100 (e100.mpr h)
          simp [isLeapYear, e4.mp d4, this]
        simp [d4, d100, d400, this]
        try push_cast
        try ring
      · have : isLeapYear (y + 1) = false := by
          simp only [isLeapYear, decide_eq_false_iff_not]
          intro hcon
          exact d4 (e4.mpr hcon.1)
        simp [d4, d100, d400, this]
        try push_cast
        try ring

theorem toOrdinal_addOneDay (d : PyDate) (h : ValidDate d) :
    toOrdinal (addOneDay d) = toOrdinal d + 1 := by
  obtain ⟨hy, hm1, hm12, hd1, hdm⟩ := h
  unfold addOneDay
  by_cases hlt : d.day < daysInMonth d.year d.month
  · rw [if_pos hlt]
    unfold toOrdinal
    push_cast
    ring
  · rw [if_neg hlt]
    have hde : d.day = daysInMonth d.year d.month := le_antisymm hdm
      (not_lt.mp hlt)
    by_cases hm : d.month < 12
    · rw [if_pos hm]
      unfold toOrdinal
      simp only
      have key : (daysBeforeMonth d.year (d.month + 1) : Int) =
          (daysBeforeMonth d.year d.month : Int) +
            (daysInMonth d.year d.month : Int) := by
        unfold daysBeforeMonth daysInMonth
        interval_cases hh : d.month <;>
          cases hleap : isLeapYear d.year <;>
            simp [cumDays, hleap] <;> norm_num
      rw [hde]
      push_cast at key ⊢
      linarith [key]
    · rw [if_neg hm]
      have hm' : d.month = 12 := le_antisymm hm12 (not_lt.mp hm)
      have hd31 : d.day = 31 := by
        rw [hde, hm']
        simp [daysInMonth]
      unfold toOrdinal
      simp only
      rw [hm', hd31]
      have hstep : leapCount (d.year - 1 + 1) =
          leapCount (d.year - 1) +
            (if isLeapYear (d.year - 1 + 1) then 1 else 0) :=
        leapCount_succ (d.year - 1)
      have hyy : d.year - 1 + 1 = d.year := by omega
      rw [hyy] at hstep
      have hdbm : (daysBeforeMonth d.year 12 : Int) =
          334 + (if isLeapYear d.year then 1 else 0) := by
        unfold daysBeforeMonth
        cases hleap : isLeapYear d.year <;> simp [cumDays, hleap]
      have hdbm1 : (daysBeforeMonth (d.year + 1) 1 : Int) = 0 := by
        unfold daysBeforeMonth
        simp [cumDays]
      rw [Nat.add_sub_cancel, hstep, hdbm1, hdbm]
      push_cast
      ring

/-- **C5.** The query built by `search_emails` is
`(SINCE "<start>" BEFORE "<end+1 day>")` with both dates rendered
`DD-Mon-YYYY` through the `"C"` locale's fixed English month
abbreviations, whatever the ambient locale is; and the `BEFORE` bound is
exactly one calendar day after the supplied end date (its ordinal is the
end date's ordinal plus one). -/
theorem search_emails_query_spec :
    (∀ (ambient : LocaleTable) (s e : PyDate),
      search_emails_date_query ambient s e =
        "(SINCE \"" ++
          (pad2 s.day ++ "-" ++ monthAbbrevC s.month ++ "-" ++
            toString s.year) ++
        "\" BEFORE \"" ++
          (pad2 (addOneDay e).day ++ "-" ++
            monthAbbrevC (addOneDay e).month ++ "-" ++
            toString (addOneDay e).year) ++
        "\")") ∧
    (∀ e : PyDate, ValidDate e →
      toOrdinal (addOneDay e) = toOrdinal e + 1) :=
  ⟨fun ambient s e => rfl, toOrdinal_addOneDay⟩

/-- Witness for C5: under a deliberately different ambient locale table
the query for 2024-01-31 .. 2024-02-28 uses English abbreviations and the
`BEFORE` bound 29-Feb-2024 (2024 is a leap year), one ordinal day after
the end date. -/
theorem search_emails_query_spec_witness :
    search_emails_date_query ⟨fun _ => "Fev"⟩ ⟨2024, 1, 31⟩ ⟨2024, 2, 28⟩ =
      "(SINCE \"31-Jan-2024\" BEFORE \"29-Feb-2024\")" ∧
    (ValidDate ⟨2024, 2, 28⟩ ∧
      toOrdinal (addOneDay ⟨2024, 2, 28⟩) = toOrdinal ⟨2024, 2, 28⟩ + 1) :=
  ⟨by rw [search_emails_query_spec.1 ⟨fun _ => "Fev"⟩]; rfl,
   by decide, search_emails_query_spec.2 ⟨2024, 2, 28⟩ (by decide)⟩

/-! ## `incremental_exporter.py` -/

/-- `self.supported_formats` (`incremental_exporter.py`, line 20). -/
def supported_formats : List String := ["csv", "json"]

/-- The mutable state of an `IncrementalEmailExporter`
(`incremental_exporter.py`, lines 19-27), restricted to the fields the
claims depend on. -/
structure ExporterState where
  is_initialized : Bool
  output_file : Option String
  format_type : Option String
  csvFileOpen : Bool
  jsonRecords : Nat
deriving DecidableEq, Repr

/-- The state after `__init__`. -/
def newExporter : ExporterState :=
  { is_initialized := false, output_file := none, format_type := none,
    csvFileOpen := false, jsonRecords := 0 }

/-- Filesystem side effects of a call: directories ensured via
`os.makedirs` and files opened for writing. -/
structure FsEffect where
  dirsCreated : List String
  filesOpened : List String
deriving DecidableEq, Repr

/-- No filesystem effect. -/
def noEffect : FsEffect := ⟨[], []⟩

/-- `os.path.dirname`, reduced to splitting at the last `'/'` (empty when
the path has no directory component). -/
def dirname (path : String) : String :=
  String.mk
    (((path.data.reverse.dropWhile (fun c => c ≠ '/')).drop 1).reverse)

/-- `IncrementalEmailExporter.initialize_export`
(`incremental_exporter.py`, lines 29-61).  `output_file` and the
lower-cased `format_type` are stored first; an unsupported format then
raises `ValueError`, which the surrounding `except` turns into `False` —
before any directory or file is touched.  For a supported format the
output directory is ensured, and for CSV the file is opened and the
header row written and flushed; for JSON only the in-memory envelope is
created.  (Filesystem errors in the supported branch, also caught by the
same `except`, are not modelled; the invalid-format path never reaches
the filesystem.) -/
def initialize_export (st : ExporterState) (output_file fmt : String) :
    Bool × ExporterState × FsEffect :=
  let st := { st with output_file := some output_file,
                      format_type := some (pyLower fmt) }
  if h : pyLower fmt ∈ supported_formats then
    let dirs := if dirname output_file = "" then [] else [dirname output_file]
    if pyLower fmt = "csv" then
      (true, { st with is_initialized := true, csvFileOpen := true },
       ⟨dirs, [output_file]⟩)
    else
      (true, { st with is_initialized := true, jsonRecords := 0 },
       ⟨dirs, []⟩)
  else (false, st, noEffect)

/-- `IncrementalEmailExporter.add_email` (`incremental_exporter.py`,
lines 88-111): `False` when not initialized; otherwise dispatch on the
stored format — a CSV row write can fail (`rowWriteOk` models an
exception caught inside `_add_email_to_csv`), a JSON append updates the
in-memory list; any other stored format falls through to `return
False`. -/
def add_email (st : ExporterState) (rowWriteOk : Bool) :
    Bool × ExporterState :=
  if !st.is_initialized then (false, st)
  else
    match st.format_type with
    | some "csv" => (rowWriteOk, st)
    | some "json" => (true, { st with jsonRecords := st.jsonRecords + 1 })
    | _ => (false, st)

/-- `IncrementalEmailExporter.finalize_export`
(`incremental_exporter.py`, lines 173-194): `False` when not
initialized; otherwise close the CSV file, or dump the JSON envelope
(`dumpOk` models an exception while closing/writing); the `finally`
clause always clears `is_initialized`. -/
def finalize_export (st : ExporterState) (dumpOk : Bool) :
    Bool × ExporterState :=
  if !st.is_initialized then (false, st)
  else
    let st' := { st with is_initialized := false }
    match st.format_type with
    | some "csv" => (dumpOk, { st' with csvFileOpen := false })
    | some "json" => (dumpOk, st')
    | _ => (false, st')

/-- **C10.** For every format string whose lower-casing is neither
`"csv"` nor `"json"`, `initialize_export` on a fresh exporter returns
`False` (the `ValueError` is caught, not propagated), performs no
filesystem effect, and leaves the exporter uninitialized, so every
subsequent `add_email` and `finalize_export` returns `False`. -/
theorem initialize_export_invalid_format (f fmt : String)
    (w d : Bool) (h : pyLower fmt ∉ supported_formats) :
    (initialize_export newExporter f fmt).1 = false ∧
    (initialize_export newExporter f fmt).2.2 = noEffect ∧
    (initialize_export newExporter f fmt).2.1.is_initialized = false ∧
    (add_email (initialize_export newExporter f fmt).2.1 w).1 = false ∧
    (finalize_export (initialize_export newExporter f fmt).2.1 d).1 =
      false := by
  unfold initialize_export
  rw [dif_neg h]
  exact ⟨rfl, rfl, rfl, rfl, rfl⟩

/-- Witness for C10 at `fmt = "XML"` (lower-cased `"xml"`). -/
theorem initialize_export_invalid_format_witness :
    pyLower "XML" ∉ supported_formats ∧
    ((initialize_export newExporter "out.dat" "XML").1 = false ∧
      (initialize_export newExporter "out.dat" "XML").2.2 = noEffect ∧
      (initialize_export newExporter "out.dat" "XML").2.1.is_initialized =
        false ∧
      (add_email (initialize_export newExporter "out.dat" "XML").2.1
        true).1 = false ∧
      (finalize_export (initialize_export newExporter "out.dat" "XML").2.1
        true).1 = false) :=
  ⟨by decide,
   initialize_export_invalid_format "out.dat" "XML" true true (by decide)⟩

/-! ## `oauth_gmail.py`: `get_oauth_string` -/

/-- A `google.oauth2.credentials.Credentials` object, reduced to the
fields `get_oauth_string` consults: the access token (`None` or a
string), the `expired` property, the refresh token, and — modelling the
network — whether a refresh attempt would succeed and the token it would
return.  In `google-auth`, `valid` is `token is not None and not
expired`. -/
structure Creds where
  token : Option String
  expired : Bool
  refresh_token : Option String
  refreshWouldSucceed : Bool
  refreshedToken : String
deriving DecidableEq, Repr

/-- `credentials.valid` (google-auth semantics). -/
def credsValid (c : Creds) : Bool := c.token.isSome && !c.expired

/-- `GmailOAuth._refresh_token` (`oauth_gmail.py`, lines 205-220):
attempts a refresh only when credentials exist, are expired and hold a
refresh token; a successful refresh installs the new token and clears
expiry; a failed refresh returns `False` (the token file deletion has no
bearing on the in-memory credentials). -/
def refresh_token_op (c : Creds) : Bool × Creds :=
  if c.expired && c.refresh_token.isSome then
    if c.refreshWouldSucceed then
      (true, { c with token := some c.refreshedToken, expired := false })
    else (false, c)
  else (false, c)

/-- The SASL XOAUTH2 payload built at `oauth_gmail.py`, line 444. -/
def oauthPayload (email token : String) : String :=
  "user=" ++ email ++ "\x01auth=Bearer " ++ token ++ "\x01\x01"

/-- `GmailOAuth.get_oauth_string` (`oauth_gmail.py`, lines 415-445):
raise when no credentials are loaded; when expired, refresh if a refresh
token exists (raising if the refresh fails) and raise if there is none;
then raise if the credentials are still not `valid`; finally return the
unencoded payload `user=<email>\x01auth=Bearer <token>\x01\x01` built
from the current access token — no base64 encoding happens here. -/
def get_oauth_string (creds : Option Creds) (email : String) :
    Except String String :=
  match creds with
  | none => .error "OAuth凭据不存在，请先进行认证"
  | some c =>
    let afterRefresh : Except String Creds :=
      if c.expired then
        match c.refresh_token with
        | some _ =>
          let r := refresh_token_op c
          if r.1 then .ok r.2
          else .error "OAuth访问令牌已过期且刷新失败，请重新认证"
        | none => .error "OAuth访问令牌已过期且无刷新令牌，请重新认证"
      else .ok c
    match afterRefresh with
    | .error e => .error e
    | .ok c' =>
      if !credsValid c' then .error "OAuth凭据无效，请重新认证"
      else .ok (oauthPayload email (c'.token.getD ""))

/-- **C9 (amended).** Full case analysis of `get_oauth_string`: it raises
when no credentials are loaded, when the credentials are expired with no
refresh token, when the refresh attempt fails, and — the case the claim
omits — when the credentials are unexpired but hold no access token
(`valid` is false); in the remaining cases it returns exactly the
unencoded payload `user=<email>\x01auth=Bearer <token>\x01\x01` built
from the current access token (the refreshed token when a refresh
happened, the stored token otherwise). -/
theorem get_oauth_string_cases (email : String) :
    ((get_oauth_string none email).isOk = false) ∧
    (∀ c : Creds, c.expired = true → c.refresh_token = none →
      (get_oauth_string (some c) email).isOk = false) ∧
    (∀ c : Creds, c.expired = true → c.refresh_token.isSome = true →
      c.refreshWouldSucceed = false →
      (get_oauth_string (some c) email).isOk = false) ∧
    (∀ c : Creds, c.expired = true → c.refresh_token.isSome = true →
      c.refreshWouldSucceed = true →
      get_oauth_string (some c) email =
        .ok (oauthPayload email c.refreshedToken)) ∧
    (∀ (c : Creds) (t : String), c.expired = false → c.token = some t →
      get_oauth_string (some c) email = .ok (oauthPayload email t)) ∧
    (∀ c : Creds, c.expired = false → c.token = none →
      (get_oauth_string (some c) email).isOk = false) := by
  refine ⟨rfl, ?_, ?_, ?_, ?_, ?_⟩
  · intro c he hr
    simp [get_oauth_string, he, hr, Except.isOk, Except.toBool]
  · intro c he hr hf
    simp only [get_oauth_string, he, if_true]
    cases hrt : c.refresh_token with
    | none => rw [hrt] at hr; simp at hr
    | some rt =>
      simp [refresh_token_op, he, hrt, hf, Except.isOk, Except.toBool]
  · intro c he hr hs
    simp only [get_oauth_string, he, if_true]
    cases hrt : c.refresh_token with
    | none => rw [hrt] at hr; simp at hr
    | some rt =>
      simp [refresh_token_op, he, hrt, hs, credsValid]
  · intro c t he ht
    simp [get_oauth_string, he, credsValid, ht]
  · intro c he ht
    simp [get_oauth_string, he, credsValid, ht, Except.isOk, Except.toBool]

/-- **C9 (counterexample).** The claim lists the raising cases as: no
credentials, expired with no refresh token, or failed refresh — and says
the function returns the payload *otherwise*.  Credentials that are
unexpired but hold no access token fall in that "otherwise", yet the
code raises (`if not self.credentials.valid`, line 438). -/
theorem get_oauth_string_invalid_unexpired_counterexample :
    (Creds.mk none false none false "t").expired = false ∧
    (Creds.mk none false none false "t").refresh_token = none ∧
    (get_oauth_string (some (Creds.mk none false none false "t"))
        "user@gmail.com").isOk = false ∧
    get_oauth_string (some (Creds.mk none false none false "t"))
        "user@gmail.com" = .error "OAuth凭据无效，请重新认证" :=
  ⟨rfl, rfl, rfl, rfl⟩

/-- Witness for C9 at concrete credential states: an expired-refreshable
credential returns the refreshed-token payload; a live credential returns
its stored-token payload. -/
theorem get_oauth_string_cases_witness :
    get_oauth_string
        (some (Creds.mk (some "old") true (some "r") true "fresh"))
        "u@gmail.com" =
      .ok (oauthPayload "u@gmail.com" "fresh") ∧
    get_oauth_string (some (Creds.mk (some "live") false none false "x"))
        "u@gmail.com" =
      .ok (oauthPayload "u@gmail.com" "live") :=
  ⟨(get_oauth_string_cases "u@gmail.com").2.2.2.1
      (Creds.mk (some "old") true (some "r") true "fresh") rfl rfl rfl,
   (get_oauth_string_cases "u@gmail.com").2.2.2.2.1
      (Creds.mk (some "live") false none false "x") "live" rfl rfl⟩

/-! ## `mail_client.py`: `fetch_emails_incremental` (C1, C6)

The run is modelled over an abstract identifier type `α`.  The
environment of one run — what the simulated IMAP session and filesystem
do — is a `RunInput`: the identifier list returned by `search_emails`,
per-identifier oracles for whether `fetch_email` + `parse_complete_email`
succeed (`parseOk`) and whether `add_email` returns `True` (`writeOk`),
the value of the `k`-th `stop_flag()` call (`stopFlag k`), the
`email_count_limit` argument, and whether `initialize_export` /
`finalize_export` succeed.  The model follows the control flow of
`mail_client.py`, lines 510-637, with `progress_callback = None` (so the
only `stop_flag()` calls are the loop checks at lines 547, 561 and 595).
-/

structure RunInput (α : Type) where
  ids : List α
  parseOk : α → Bool
  writeOk : α → Bool
  stopFlag : Nat → Bool
  email_count_limit : Int
  initOk : Bool
  finalizeOk : Bool

/-- The running state: number of `stop_flag()` calls made so far,
`processed_count`, the `(sequence_number, id)` pairs passed to
`add_email` in order, and the pairs for which `add_email` returned
`True` (the records written to the file), in order. -/
structure RunState (α : Type) where
  checks : Nat
  processed : Nat
  calls : List (Nat × α)
  written : List (Nat × α)
deriving Repr

def initialRunState {α : Type} : RunState α :=
  { checks := 0, processed := 0, calls := [], written := [] }

/-- One `stop_flag()` call. -/
def checkStop {α : Type} (inp : RunInput α) (st : RunState α) :
    Bool × RunState α :=
  (inp.stopFlag st.checks, { st with checks := st.checks + 1 })

/-- The per-message `try` body (`mail_client.py`, lines 566-592): a
fetch/parse failure is caught and skipped; otherwise
`processed_count += 1` happens first (line 577) and then
`add_email(email_data, processed_count)` is called (line 578) — its
result only selects the progress message. -/
def processOne {α : Type} (inp : RunInput α) (st : RunState α) (a : α) :
    RunState α :=
  if inp.parseOk a then
    let seq := st.processed + 1
    let st := { st with processed := seq, calls := st.calls ++ [(seq, a)] }
    if inp.writeOk a then { st with written := st.written ++ [(seq, a)] }
    else st
  else st

/-- The inner `for` loop over one batch (lines 559-592): before each
message, `stop_flag()` is consulted and a `True` breaks out of the
batch. -/
def runBatch {α : Type} (inp : RunInput α) : List α → RunState α →
    RunState α
  | [], st => st
  | a :: rest, st =>
    let c := checkStop inp st
    if c.1 then c.2
    else runBatch inp rest (processOne inp c.2 a)

/-- The outer loop over batches (lines 545-607): `stop_flag()` is
consulted before each batch (line 547, breaking the outer loop), the
batch is run, and `stop_flag()` is consulted again after the inner loop
(line 595, breaking the outer loop). -/
def runBatches {α : Type} (inp : RunInput α) : List (List α) →
    RunState α → RunState α
  | [], st => st
  | b :: rest, st =>
    let c := checkStop inp st
    if c.1 then c.2
    else
      let st := runBatch inp b c.2
      let c2 := checkStop inp st
      if c2.1 then c2.2
      else runBatches inp rest c2.2

/-- The `email_count_limit` clamp (`mail_client.py`, lines 525-528):
when the limit is positive and fewer than `len(ids)`, keep
`ids[-limit:]` — the tail of the identifier list. -/
def applyLimit {α : Type} (limit : Int) (ids : List α) : List α :=
  if 0 < limit ∧ limit < (ids.length : Int) then
    ids.drop (ids.length - limit.toNat)
  else ids

/-- Split a list into batches of `n` (`batch_size = 10` in the
incremental path), with an explicit fuel bound for structural
recursion; the fuel (initially the list length) never runs out, since
every step consumes at least the head element. -/
def chunksOfAux {α : Type} (n : Nat) : Nat → List α → List (List α)
  | _, [] => []
  | 0, l => [l]
  | fuel + 1, a :: rest =>
    (a :: rest.take (n - 1)) :: chunksOfAux n fuel (rest.drop (n - 1))

/-- Split a list into batches of `n`. -/
def chunksOf {α : Type} (n : Nat) (l : List α) : List (List α) :=
  chunksOfAux n l.length l

/-- `MailClient.fetch_emails_incremental` (`mail_client.py`,
lines 485-637), with `progress_callback = None` and a callable
`stop_flag`.  A failed `initialize_export` raises (line 515) — modelled
as `none`.  The searched identifiers are clamped by the limit; an empty
list finalizes (ignoring the result, line 538) and returns `0`.
Otherwise the batches of 10 are run; `finalize_export` failing raises
(line 628) — `none`; on success the function returns `processed_count`
(line 626) together with (for the model) the `add_email` call list and
the written records. -/
def fetch_emails_incremental {α : Type} (inp : RunInput α) :
    Option (Nat × List (Nat × α) × List (Nat × α)) :=
  if !inp.initOk then none
  else
    let ids := applyLimit inp.email_count_limit inp.ids
    if ids.isEmpty then some (0, [], [])
    else
      let st := runBatches inp (chunksOf 10 ids) initialRunState
      if inp.finalizeOk then some (st.processed, st.calls, st.written)
      else none

theorem chunksOfAux_join {α : Type} (n : Nat) :
    ∀ (fuel : Nat) (l : List α), l.length ≤ fuel →
      (chunksOfAux n fuel l).join = l := by
  intro fuel
  induction fuel with
  | zero =>
    intro l hl
    have : l = [] := List.eq_nil_of_length_eq_zero (Nat.le_zero.mp hl)
    simp [this, chunksOfAux]
  | succ k ih =>
    intro l hl
    cases l with
    | nil => simp [chunksOfAux]
    | cons a rest =>
      have hd : (rest.drop (n - 1)).length ≤ k := by
        simp only [List.length_cons] at hl
        simp only [List.length_drop]
        omega
      simp only [chunksOfAux, List.join_cons, ih _ hd, List.cons_append,
        List.take_append_drop]

/-- Joining the batches gives back the identifier list. -/
theorem chunksOf_join {α : Type} (n : Nat) (l : List α) :
    (chunksOf n l).join = l :=
  chunksOfAux_join n l.length l le_rfl

/-- The invariant maintained by the run: the sequence numbers passed to
`add_email` so far are exactly `1, 2, …, processed_count` in order, and
the written records are exactly the `add_email` calls that returned
`True`, in order. -/
def SeqInv {α : Type} (inp : RunInput α) (st : RunState α) : Prop :=
  st.calls.map Prod.fst = List.range' 1 st.processed ∧
  st.written = st.calls.filter (fun c => inp.writeOk c.2)

theorem SeqInv_checks {α : Type} (inp : RunInput α) (st : RunState α)
    (h : SeqInv inp st) : SeqInv inp { st with checks := st.checks + 1 } := h

theorem processOne_inv {α : Type} (inp : RunInput α) (st : RunState α)
    (a : α) (h : SeqInv inp st) : SeqInv inp (processOne inp st a) := by
  obtain ⟨h1, h2⟩ := h
  unfold processOne
  by_cases hp : inp.parseOk a = true
  · simp only [hp, if_true]
    by_cases hw : inp.writeOk a = true
    · simp only [hw, if_true]
      refine ⟨?_, ?_⟩
      · simp [h1, List.range'_concat, Nat.add_comm]
      · simp [List.filter_append, h2, hw]
    · simp only [hw, if_false]
      refine ⟨?_, ?_⟩
      · simp [h1, List.range'_concat, Nat.add_comm]
      · simp only [List.filter_append, h2]
        simp [hw]
  · simp only [hp, if_false]
    exact ⟨h1, h2⟩

theorem runBatch_inv {α : Type} (inp : RunInput α) (b : List α)
    (st : RunState α) (h : SeqInv inp st) :
    SeqInv inp (runBatch inp b st) := by
  induction b generalizing st with
  | nil => exact h
  | cons a rest ih =>
    unfold runBatch
    by_cases hs : (checkStop inp st).1 = true
    · simp only [hs, if_true]
      exact SeqInv_checks inp st h
    · simp only [hs, if_false]
      exact ih _ (processOne_inv inp _ a (SeqInv_checks inp st h))

theorem runBatches_inv {α : Type} (inp : RunInput α) (bs : List (List α))
    (st : RunState α) (h : SeqInv inp st) :
    SeqInv inp (runBatches inp bs st) := by
  induction bs generalizing st with
  | nil => exact h
  | cons b rest ih =>
    unfold runBatches
    by_cases hs : (checkStop inp st).1 = true
    · simp only [hs, if_true]
      exact SeqInv_checks inp st h
    · simp only [hs, if_false]
      have h1 : SeqInv inp (runBatch inp b (checkStop inp st).2) :=
        runBatch_inv inp b _ (SeqInv_checks inp st h)
      by_cases hs2 :
          (checkStop inp (runBatch inp b (checkStop inp st).2)).1 = true
      · simp only [hs2, if_true]
        exact SeqInv_checks inp _ h1
      · simp only [hs2, if_false]
        exact ih _ (SeqInv_checks inp _ h1)

/-- **C1 (amended).** On every run of `fetchEmailsIncremental` that
returns (completed or stopped via the stop flag), the sequence numbers
passed to `addEmail` are exactly `1, 2, …, n` in order where `n` is the
returned integer: they are strictly increasing and gapless over all
messages that were successfully fetched and parsed.  A message whose
fetch/parse fails consumes no sequence number, but a message whose
`addEmail` call returns `False` *does* consume one and *is* counted in
the returned integer, which therefore equals the number of `addEmail`
calls, not the number of records written; the two coincide exactly when
every `addEmail` call succeeds.  Over the successfully written records
the sequence numbers are strictly increasing but not necessarily
gapless or equal in count to the returned integer. -/
theorem fetch_emails_incremental_count {α : Type} (inp : RunInput α)
    (n : Nat) (calls written : List (Nat × α))
    (h : fetch_emails_incremental inp = some (n, calls, written)) :
    calls.map Prod.fst = List.range' 1 n ∧
    n = calls.length ∧
    written = calls.filter (fun c => inp.writeOk c.2) ∧
    (written.map Prod.fst).Pairwise (· < ·) ∧
    ((∀ a, inp.writeOk a = true) → written = calls ∧ n = written.length) := by
  unfold fetch_emails_incremental at h
  by_cases hi : inp.initOk = true
  · simp only [hi, Bool.not_true, Bool.false_eq_true, if_false] at h
    by_cases he : (applyLimit inp.email_count_limit inp.ids).isEmpty = true
    · rw [if_pos he] at h
      obtain ⟨hn, hc, hw⟩ :
          n = 0 ∧ calls = [] ∧ written = [] := by
        rw [Option.some.injEq, Prod.mk.injEq, Prod.mk.injEq] at h
        exact ⟨h.1.symm, h.2.1.symm, h.2.2.symm⟩
      subst hn; subst hc; subst hw
      exact ⟨rfl, rfl, rfl, List.Pairwise.nil, fun _ => ⟨rfl, rfl⟩⟩
    · rw [if_neg he] at h
      by_cases hf : inp.finalizeOk = true
      · rw [if_pos hf] at h
        set st := runBatches inp
          (chunksOf 10 (applyLimit inp.email_count_limit inp.ids))
          initialRunState with hst
        have hinv : SeqInv inp st :=
          runBatches_inv inp _ _ ⟨rfl, rfl⟩
        obtain ⟨hn, hc, hw⟩ :
            n = st.processed ∧ calls = st.calls ∧ written = st.written := by
          rw [Option.some.injEq, Prod.mk.injEq, Prod.mk.injEq] at h
          exact ⟨h.1.symm, h.2.1.symm, h.2.2.symm⟩
        subst hn; subst hc; subst hw
        obtain ⟨h1, h2⟩ := hinv
        have hlen : st.calls.length = st.processed := by
          have := congrArg List.length h1
          simpa using this
        refine ⟨h1, hlen.symm, h2, ?_, ?_⟩
        · have hsub : (st.written.map Prod.fst).Sublist
              (st.calls.map Prod.fst) := by
            rw [h2]
            exact (List.filter_sublist st.calls).map Prod.fst
          rw [h1] at hsub
          exact List.Pairwise.sublist hsub
            (List.pairwise_lt_range' 1 st.processed)
        · intro hall
          have hwc : st.written = st.calls := by
            rw [h2]
            exact List.filter_eq_self.mpr (fun c _ => hall c.2)
          rw [hwc, hlen]
          exact ⟨rfl, rfl⟩
      · rw [if_neg hf] at h
        exact absurd h (by simp)
  · rw [Bool.not_eq_true] at hi
    rw [hi] at h
    simp at h

/-- A run in which both messages are fetched and parsed, the write of the
first record fails and the write of the second succeeds, with no stop
request. -/
def writeFailInput : RunInput Nat :=
  { ids := [10, 11], parseOk := fun _ => true,
    writeOk := fun a => decide (a = 11), stopFlag := fun _ => false,
    email_count_limit := 0, initOk := true, finalizeOk := true }

/-- **C1 (counterexample).** On `writeFailInput` the function returns `2`
although only one record was written (`2 ≠ 1`), and the single written
record carries sequence number `2`, not `1` — so the returned integer is
not the number of records written, and the sequence numbers over the
successfully written records are not gapless: a message whose write
fails *does* consume a sequence number. -/
theorem fetch_emails_incremental_count_counterexample :
    fetch_emails_incremental writeFailInput =
      some (2, [(1, 10), (2, 11)], [(2, 11)]) ∧
    (2 : Nat) ≠ ([(2, 11)] : List (Nat × Nat)).length ∧
    ([(2, 11)] : List (Nat × Nat)).map Prod.fst ≠
      List.range' 1 ([(2, 11)] : List (Nat × Nat)).length :=
  ⟨rfl, by decide, by decide⟩

/-- A fully successful three-message run with no stop request. -/
def allOkInput : RunInput Nat :=
  { ids := [10, 11, 12], parseOk := fun _ => true, writeOk := fun _ => true,
    stopFlag := fun _ => false, email_count_limit := 0,
    initOk := true, finalizeOk := true }

/-- Witness for C1 (amended) on `allOkInput`: the run returns `3`, the
`add_email` sequence numbers are `1, 2, 3`, and all records written. -/
theorem fetch_emails_incremental_count_witness :
    fetch_emails_incremental allOkInput =
      some (3, [(1, 10), (2, 11), (3, 12)], [(1, 10), (2, 11), (3, 12)]) ∧
    ([(1, 10), (2, 11), (3, 12)] : List (Nat × Nat)).map Prod.fst =
      List.range' 1 3 ∧
    (3 : Nat) = ([(1, 10), (2, 11), (3, 12)] : List (Nat × Nat)).length :=
  ⟨rfl,
   (fetch_emails_incremental_count allOkInput 3 [(1, 10), (2, 11), (3, 12)]
     [(1, 10), (2, 11), (3, 12)] rfl).1,
   (fetch_emails_incremental_count allOkInput 3 [(1, 10), (2, 11), (3, 12)]
     [(1, 10), (2, 11), (3, 12)] rfl).2.1⟩

/-! ### C6: the `email_count_limit` clamp on a benign run -/

/-- `(n, l[0]), (n+1, l[1]), …`: the identifiers paired with consecutive
sequence numbers starting at `n`. -/
def enumFrom {α : Type} (n : Nat) (l : List α) : List (Nat × α) :=
  (List.range' n l.length).zip l

theorem enumFrom_cons {α : Type} (n : Nat) (a : α) (l : List α) :
    enumFrom n (a :: l) = (n, a) :: enumFrom (n + 1) l := rfl

theorem enumFrom_append {α : Type} (n : Nat) (l1 l2 : List α) :
    enumFrom n (l1 ++ l2) =
      enumFrom n l1 ++ enumFrom (n + l1.length) l2 := by
  unfold enumFrom
  rw [List.length_append, Nat.add_comm l1.length l2.length,
    ← List.range'_append n l1.length l2.length 1, Nat.one_mul,
    List.zip_append (by simp)]

theorem enumFrom_map_snd {α : Type} (n : Nat) (l : List α) :
    (enumFrom n l).map Prod.snd = l :=
  List.map_snd_zip _ _ (by simp)

/-- A run environment in which every fetch/parse and every write
succeeds and the stop flag is never raised. -/
def benignInput {α : Type} (ids : List α) (limit : Int) : RunInput α :=
  { ids := ids, parseOk := fun _ => true, writeOk := fun _ => true,
    stopFlag := fun _ => false, email_count_limit := limit,
    initOk := true, finalizeOk := true }

theorem runBatch_benign {α : Type} (ids : List α) (M : Int) (b : List α)
    (st : RunState α) :
    (runBatch (benignInput ids M) b st).processed =
      st.processed + b.length ∧
    (runBatch (benignInput ids M) b st).calls =
      st.calls ++ enumFrom (st.processed + 1) b ∧
    (runBatch (benignInput ids M) b st).written =
      st.written ++ enumFrom (st.processed + 1) b := by
  induction b generalizing st with
  | nil => simp [runBatch, enumFrom]
  | cons a rest ih =>
    have hstep : runBatch (benignInput ids M) (a :: rest) st =
        runBatch (benignInput ids M) rest
          ⟨st.checks + 1, st.processed + 1,
            st.calls ++ [(st.processed + 1, a)],
            st.written ++ [(st.processed + 1, a)]⟩ := rfl
    rw [hstep]
    obtain ⟨ih1, ih2, ih3⟩ := ih
      ⟨st.checks + 1, st.processed + 1, st.calls ++ [(st.processed + 1, a)],
        st.written ++ [(st.processed + 1, a)]⟩
    refine ⟨?_, ?_, ?_⟩
    · rw [ih1]; simp; omega
    · rw [ih2]; simp [enumFrom_cons]
    · rw [ih3]; simp [enumFrom_cons]

theorem runBatches_benign {α : Type} (ids : List α) (M : Int)
    (bs : List (List α)) (st : RunState α) :
    (runBatches (benignInput ids M) bs st).processed =
      st.processed + bs.join.length ∧
    (runBatches (benignInput ids M) bs st).calls =
      st.calls ++ enumFrom (st.processed + 1) bs.join ∧
    (runBatches (benignInput ids M) bs st).written =
      st.written ++ enumFrom (st.processed + 1) bs.join := by
  induction bs generalizing st with
  | nil => simp [runBatches, enumFrom]
  | cons b rest ih =>
    have hstep : runBatches (benignInput ids M) (b :: rest) st =
        runBatches (benignInput ids M) rest
          { runBatch (benignInput ids M) b
              { st with checks := st.checks + 1 } with
            checks := (runBatch (benignInput ids M) b
              { st with checks := st.checks + 1 }).checks + 1 } := rfl
    rw [hstep]
    obtain ⟨hb1, hb2, hb3⟩ :=
      runBatch_benign ids M b { st with checks := st.checks + 1 }
    obtain ⟨ih1, ih2, ih3⟩ := ih
      { runBatch (benignInput ids M) b { st with checks := st.checks + 1 } with
        checks := (runBatch (benignInput ids M) b
          { st with checks := st.checks + 1 }).checks + 1 }
    refine ⟨?_, ?_, ?_⟩
    · rw [ih1]
      show (runBatch (benignInput ids M) b
        { st with checks := st.checks + 1 }).processed + _ = _
      rw [hb1]
      simp
      omega
    · rw [ih2]
      show (runBatch (benignInput ids M) b
          { st with checks := st.checks + 1 }).calls ++ _ = _
      rw [hb2]
      show _ ++ enumFrom ((runBatch (benignInput ids M) b
          { st with checks := st.checks + 1 }).processed + 1) rest.join = _
      rw [hb1]
      simp only [List.join_cons, enumFrom_append, List.append_assoc]
      rw [show st.processed + b.length + 1 = st.processed + 1 + b.length
        from by omega]
    · rw [ih3]
      show (runBatch (benignInput ids M) b
          { st with checks := st.checks + 1 }).written ++ _ = _
      rw [hb3]
      show _ ++ enumFrom ((runBatch (benignInput ids M) b
          { st with checks := st.checks + 1 }).processed + 1) rest.join = _
      rw [hb1]
      simp only [List.join_cons, enumFrom_append, List.append_assoc]
      rw [show st.processed + b.length + 1 = st.processed + 1 + b.length
        from by omega]

/-- **C6.** With a simulated session returning `ids` and every
fetch/parse and write succeeding (no stop request), the records written
by `fetch_emails_incremental` are exactly: the last `M` identifiers of
the search result — the tail `ids[-M:]`, in their original relative
order — when `0 < M < len(ids)`, and the whole list unchanged otherwise
(`M = 0`, `M` negative, or at most `M` identifiers found); the returned
count is the length of that list. -/
theorem fetch_emails_incremental_applies_limit (ids : List Nat) (M : Int) :
    (fetch_emails_incremental (benignInput ids M)).map
        (fun r => r.2.2.map Prod.snd) =
      some (if 0 < M ∧ M < (ids.length : Int)
            then ids.drop (ids.length - M.toNat) else ids) ∧
    (fetch_emails_incremental (benignInput ids M)).map (fun r => r.1) =
      some (applyLimit M ids).length := by
  have hrhs : (if 0 < M ∧ M < (ids.length : Int)
      then ids.drop (ids.length - M.toNat) else ids) = applyLimit M ids := by
    unfold applyLimit
    rfl
  rw [hrhs]
  have hfe : fetch_emails_incremental (benignInput ids M) =
      if (applyLimit M ids).isEmpty = true then some (0, [], [])
      else some
        ((runBatches (benignInput ids M) (chunksOf 10 (applyLimit M ids))
            initialRunState).processed,
         (runBatches (benignInput ids M) (chunksOf 10 (applyLimit M ids))
            initialRunState).calls,
         (runBatches (benignInput ids M) (chunksOf 10 (applyLimit M ids))
            initialRunState).written) := rfl
  rw [hfe]
  by_cases he : (applyLimit M ids).isEmpty = true
  · have hnil : applyLimit M ids = [] := by
      rwa [List.isEmpty_iff] at he
    rw [if_pos he]
    simp [hnil]
  · rw [if_neg he]
    obtain ⟨h1, h2, h3⟩ := runBatches_benign ids M
      (chunksOf 10 (applyLimit M ids)) initialRunState
    simp only [Option.map_some']
    refine ⟨?_, ?_⟩
    · rw [h3]
      simp only [initialRunState, chunksOf_join, List.nil_append,
        Nat.zero_add, enumFrom_map_snd]
    · rw [h1]
      simp only [initialRunState, chunksOf_join, Nat.zero_add]

end MailExporter
